import Mathlib

/-!
Verification of the grid-bot position-management core.

Shallow embedding of the grid trading bot (`main.py`): the grid zone tracker,
the P&L calculator with fee and safety-buffer adjustment, the loss-recovery
sizing update, the open/reverse/close transitions of the position state
machine, and the ledger persistence round trip.  Prices, sizes and USDT
amounts are embedded as exact rationals; exchange calls (price queries,
position queries, order placement) are passed in explicitly as oracle values,
so every transition is a pure function on the bot state.
-/

namespace GridBot

/-- Python truthiness of an optional float attribute: `not x` is `True`
both when `x` is `None` and when `x == 0.0`.  Used for the guards
`if not self.last_price`, `if not price` and `if not qty` in the source. -/
def isFalsy : Option ℚ → Bool
  | none => true
  | some x => x == 0

/-- Embeds `GridBot.get_grid_zone`: iterate over the grid levels in order and return
the index of the first level with `price <= level`; if the loop exhausts the
list, return the number of levels. -/
def get_grid_zone : List ℚ → ℚ → ℕ
  | [], _ => 0
  | l :: ls, price => if price ≤ l then 0 else get_grid_zone ls price + 1

/-- The mutable tracking attributes of the grid crossing detector:
`self.last_price` and `self.last_grid_zone`. -/
structure TrackerState where
  last_price : Option ℚ
  last_grid_zone : Option ℕ
  deriving Repr, DecidableEq

/-- Embeds `GridBot.check_grid_crossing`: on a falsy `last_price` (None or 0, by
Python truthiness) only initialize the tracking state and report nothing.
Otherwise compute the current zone; if the recorded zone differs, collect the
levels lying between the last and the current price (boundary included in the
direction of travel) and report the first element of that filtered list (the
grid level list is kept ascending by `sorted()` at startup).  The tracking
state is updated on every call. -/
def check_grid_crossing (grid_levels : List ℚ) (s : TrackerState) (current_price : ℚ) :
    Option ℚ × TrackerState :=
  match s.last_price with
  | none =>
      (none, ⟨some current_price, some (get_grid_zone grid_levels current_price)⟩)
  | some lp =>
      if lp = 0 then
        (none, ⟨some current_price, some (get_grid_zone grid_levels current_price)⟩)
      else
        let current_zone := get_grid_zone grid_levels current_price
        let crossed_levels : List ℚ :=
          match s.last_grid_zone with
          | none => []
          | some z =>
              if current_zone = z then []
              else if current_price > lp then
                grid_levels.filter (fun level => decide (lp < level) && decide (level ≤ current_price))
              else
                grid_levels.filter (fun level => decide (current_price ≤ level) && decide (level < lp))
        (crossed_levels.head?, ⟨some current_price, some current_zone⟩)

/-- Embeds `GridBot.calculate_exact_pnl_with_buffer`: directional raw P&L, minus the
0.055% entry and exit fees, and a further 3% of the absolute value subtracted
when the post-fee result is negative. -/
def calculate_exact_pnl_with_buffer (entry_price exit_price size : ℚ) (side : String) : ℚ :=
  let raw_pnl := if side = "Buy" then (exit_price - entry_price) * size
                 else (entry_price - exit_price) * size
  let entry_fee := size * entry_price * (11 / 20000)
  let exit_fee := size * exit_price * (11 / 20000)
  let total_fees := entry_fee + exit_fee
  let pnl_after_fees := raw_pnl - total_fees
  if pnl_after_fees < 0 then pnl_after_fees - |pnl_after_fees| * (3 / 100)
  else pnl_after_fees

/-- The P&L contract as the specification words it (§4.2): raw P&L
`(exit - entry) * size` for a long and `(entry - exit) * size` for a short,
fees `size * price * 0.00055` per side deducted, and when the post-fee result
is negative a safety buffer of 3% of its absolute value subtracted further. -/
def pnl_spec_formula (entry_price exit_price size : ℚ) (side : String) : ℚ :=
  let raw := if side = "Buy" then (exit_price - entry_price) * size
             else (entry_price - exit_price) * size
  let after := raw - size * entry_price * (11 / 20000) - size * exit_price * (11 / 20000)
  if after < 0 then after - (3 / 100) * |after| else after

/-- Static configuration loaded once at startup: leverage, base stake (`USDT`),
the ascending grid levels, stop-loss/take-profit ROE percentages, and the
instrument lot-size filter (`qtyStep`, `minOrderQty`). -/
structure Config where
  leverage : ℚ
  base_usdt : ℚ
  grid_levels : List ℚ
  sl_roe : ℚ
  tp_roe : ℚ
  qty_step : ℚ
  min_qty : ℚ
  deriving Repr

/-- A tracked position: `{"side": ..., "size": ..., "entry_price": ...}`. -/
structure Position where
  side : String
  size : ℚ
  entry_price : ℚ
  deriving Repr, DecidableEq

/-- A row of the append-only `trades` table written by `GridBot.log_trade`. -/
structure TradeRec where
  side : String
  grid_level : ℚ
  usdt_amount : ℚ
  pnl : ℚ
  accumulated_losses_after : ℚ
  deriving Repr, DecidableEq

/-- The runtime memory of `GridBot` that the transitions touch: the tracked
position, its grid level, the P&L tracking fields, the last order id, the
crossing-tracker attributes, and the trade rows appended so far. -/
structure BotState where
  current_position : Option Position
  current_grid_level : Option ℚ
  accumulated_losses : ℚ
  daily_pnl : ℚ
  total_trades : ℕ
  current_order_id : Option String
  tracker : TrackerState
  trades : List TradeRec
  deriving Repr, DecidableEq

/-- The state of `GridBot` right after `__init__` on a fresh database:
no position, no grid level, zeroed P&L counters, empty tracker. -/
def initial_state : BotState :=
  { current_position := none
    current_grid_level := none
    accumulated_losses := 0
    daily_pnl := 0
    total_trades := 0
    current_order_id := none
    tracker := ⟨none, none⟩
    trades := [] }

/-- Embeds `GridBot.update_pnl_tracking`: add the realized P&L to `daily_pnl`, bump
`total_trades`, then either grow `accumulated_losses` by the absolute loss or,
when the buffer is strictly positive, pay it down to
`max(0, accumulated_losses - trade_pnl)`.  (The `save_state` call the source
makes at the end is modelled separately by `save_state` below.) -/
def update_pnl_tracking (s : BotState) (trade_pnl : ℚ) : BotState :=
  let s1 := { s with daily_pnl := s.daily_pnl + trade_pnl, total_trades := s.total_trades + 1 }
  if trade_pnl < 0 then
    { s1 with accumulated_losses := s1.accumulated_losses + |trade_pnl| }
  else if s1.accumulated_losses > 0 then
    { s1 with accumulated_losses := max 0 (s1.accumulated_losses - trade_pnl) }
  else s1

/-- Embeds `GridBot.calculate_position_size_with_recovery`: base stake plus the
outstanding loss buffer. -/
def calculate_position_size_with_recovery (cfg : Config) (s : BotState) : ℚ :=
  cfg.base_usdt + s.accumulated_losses

/-- Embeds `round_down` from the source: `Decimal` floor division of the value by the
step, times the step (`Decimal.__floordiv__` truncates toward zero; the final
`quantize(..., ROUND_DOWN)` is the identity on an exact multiple of the step). -/
def round_down (value step : ℚ) : ℚ :=
  (if 0 ≤ value / step then (⌊value / step⌋ : ℚ) else (⌈value / step⌉ : ℚ)) * step

/-- Embeds `GridBot.calculate_position_size`: quantity from USDT amount, leverage and
price, rounded down to the lot step and raised to the minimum order quantity.
The price query result is an oracle argument; a falsy price (`None` or `0`)
makes the function return `None`, as `if not price: return None` does. -/
def calculate_position_size (cfg : Config) (usdt_amount : ℚ) (price : Option ℚ) : Option ℚ :=
  if isFalsy price then none
  else
    let p := price.getD 0
    let raw_qty := usdt_amount * cfg.leverage / p
    let qty := round_down raw_qty cfg.qty_step
    some (if qty < cfg.min_qty then cfg.min_qty else qty)

/-- A market order request as handed to the exchange client: side, quantity
and the attached take-profit/stop-loss prices. -/
structure OrderRequest where
  side : String
  qty : ℚ
  take_profit : ℚ
  stop_loss : ℚ
  deriving Repr, DecidableEq

/-- The outcome of an order placement call, as inspected by the callers via
`"error" in result`: either a success carrying an optional order id, or an
error message. -/
inductive OrderResult where
  | ok (orderId : Option String)
  | err (msg : String)
  deriving Repr, DecidableEq

/-- Embeds `GridBot.reverse_position`: flip the side, use twice the current quantity
("your 2x method"), query the current price, and build the TP/SL prices for
the reverse direction.  Returns `none` when the price query fails (the
source's `{"error": ...}` dictionary). -/
def reverse_position (current_qty : ℚ) (current_side : String) (sl_roe tp_roe leverage : ℚ)
    (price_query : Option ℚ) : Option OrderRequest :=
  let reverse_side := if current_side = "Buy" then "Sell" else "Buy"
  let reverse_qty := current_qty * 2
  if isFalsy price_query then none
  else
    let current_price := price_query.getD 0
    if reverse_side = "Buy" then
      some { side := reverse_side, qty := reverse_qty
             take_profit := current_price * (1 + tp_roe / 100 / leverage)
             stop_loss := current_price * (1 - sl_roe / 100 / leverage) }
    else
      some { side := reverse_side, qty := reverse_qty
             take_profit := current_price * (1 - tp_roe / 100 / leverage)
             stop_loss := current_price * (1 + sl_roe / 100 / leverage) }

/-- Embeds `GridBot.open_grid_position`: pick the side from the crossing direction,
size the stake with loss recovery, compute the quantity (a falsy quantity
aborts), and on a successful order record the position, the grid level, the
order id and a trade row with zero P&L; on an order error return the state
unchanged. -/
def open_grid_position (cfg : Config) (s : BotState) (price grid_level : ℚ)
    (price_query : Option ℚ) (order_result : OrderResult) : BotState :=
  let side := if price > grid_level then "Buy" else "Sell"
  let usdt_amount := calculate_position_size_with_recovery cfg s
  let qty? := calculate_position_size cfg usdt_amount price_query
  if isFalsy qty? then s
  else
    match order_result with
    | OrderResult.err _ => s
    | OrderResult.ok oid =>
        let qty := qty?.getD 0
        { s with current_order_id := oid
                 current_position := some { side := side, size := qty, entry_price := price }
                 current_grid_level := some grid_level
                 trades := s.trades ++ [{ side := side, grid_level := grid_level
                                          usdt_amount := usdt_amount, pnl := 0
                                          accumulated_losses_after := s.accumulated_losses }] }

/-- Embeds `GridBot.execute_reversal`: query the price (abort if falsy), compute the
realized P&L of the closing leg, apply the loss-recovery update first, compute
the new stake, then place the reversing order via `reverse_position` with the
actual exchange position size.  On success record the flipped position with
size `actual_position_size * 2` and append a trade row; on failure keep the
already-updated P&L state.  The two price queries (one in `execute_reversal`,
one inside `reverse_position`) are separate oracle arguments. -/
def execute_reversal (cfg : Config) (s : BotState) (current_pos : Position) (grid_level : ℚ)
    (price_query price_query2 : Option ℚ) (order_result : OrderResult) : BotState :=
  if isFalsy price_query then s
  else
    let current_price := price_query.getD 0
    let calculated_pnl := calculate_exact_pnl_with_buffer current_pos.entry_price current_price
        current_pos.size current_pos.side
    let s1 := update_pnl_tracking s calculated_pnl
    let usdt_amount := calculate_position_size_with_recovery cfg s1
    let actual_position_size := current_pos.size
    match reverse_position actual_position_size current_pos.side cfg.sl_roe cfg.tp_roe
        cfg.leverage price_query2 with
    | none => s1
    | some _req =>
        match order_result with
        | OrderResult.err _ => s1
        | OrderResult.ok oid =>
            let new_side := if current_pos.side = "Buy" then "Sell" else "Buy"
            { s1 with current_order_id := oid
                      current_position := some { side := new_side
                                                 size := actual_position_size * 2
                                                 entry_price := current_price }
                      trades := s1.trades ++ [{ side := new_side, grid_level := grid_level
                                                usdt_amount := usdt_amount, pnl := calculated_pnl
                                                accumulated_losses_after := s1.accumulated_losses }] }

/-- The exchange-call results consumed during one event: the position query,
the price queries, and the order placement outcome. -/
structure Env where
  api_position : Option Position
  price_query : Option ℚ
  price_query2 : Option ℚ
  order_result : OrderResult
  deriving Repr

/-- Embeds `GridBot.should_reverse_position`: the crossed level equals the recorded
entry grid level (`grid_level == self.current_grid_level`). -/
def should_reverse_position (s : BotState) (grid_level : ℚ) : Bool :=
  s.current_grid_level == some grid_level

/-- Embeds `GridBot.execute_grid_trade`: with an exchange-reported position, reverse
when the crossed level matches the entry level, otherwise hold; with no
position, open a new one. -/
def execute_grid_trade (cfg : Config) (s : BotState) (price grid_level : ℚ) (env : Env) :
    BotState :=
  match env.api_position with
  | some pos =>
      if should_reverse_position s grid_level then
        execute_reversal cfg s pos grid_level env.price_query env.price_query2 env.order_result
      else s
  | none => open_grid_position cfg s price grid_level env.price_query env.order_result

/-- Embeds `GridBot.handle_ticker` on a validated tick: a falsy price returns
immediately; otherwise run the crossing detector (which updates the tracker
attributes) and, when a truthy crossed level is reported, execute the grid
trade. -/
def handle_ticker (cfg : Config) (s : BotState) (price : ℚ) (env : Env) : BotState :=
  if price = 0 then s
  else
    let res := check_grid_crossing cfg.grid_levels s.tracker price
    let s1 := { s with tracker := res.2 }
    match res.1 with
    | none => s1
    | some lvl => if lvl = 0 then s1 else execute_grid_trade cfg s1 price lvl env

/-- Embeds `GridBot.monitor_position_status`: nothing to do without a tracked
position; a closure is detected when the exchange reports no position.  Then a
falsy price query aborts, otherwise the realized P&L is computed against the
current price, the loss-recovery update applied, a `...-CLOSED` trade row
appended (`self.current_grid_level or 0`), and the position, grid level and
order id cleared. -/
def monitor_position_status (s : BotState) (env : Env) : BotState :=
  match s.current_position with
  | none => s
  | some pos =>
      match env.api_position with
      | some _ => s
      | none =>
          if isFalsy env.price_query then s
          else
            let current_price := env.price_query.getD 0
            let calculated_pnl := calculate_exact_pnl_with_buffer pos.entry_price current_price
                pos.size pos.side
            let s1 := update_pnl_tracking s calculated_pnl
            { s1 with
                trades := s1.trades ++ [{ side := pos.side ++ "-CLOSED"
                                          grid_level := (s1.current_grid_level.getD 0)
                                          usdt_amount := 0, pnl := calculated_pnl
                                          accumulated_losses_after := s1.accumulated_losses }]
                current_position := none
                current_grid_level := none
                current_order_id := none }

/-- One reactive event of the running bot: a price tick delivered to
`handle_ticker`, or one firing of the periodic closure monitor. -/
inductive Event where
  | tick (price : ℚ) (env : Env)
  | poll (env : Env)

/-- One step of the position state machine: dispatch the event to
`handle_ticker` or `monitor_position_status`. -/
def step (cfg : Config) (s : BotState) (e : Event) : BotState :=
  match e with
  | Event.tick price env => handle_ticker cfg s price env
  | Event.poll env => monitor_position_status s env

/-- A row of the singleton `bot_state` table.  Every column is nullable
(`REAL`/`INTEGER` with no NOT NULL constraint), hence the `Option`s. -/
structure BotStateRow where
  accumulated_losses : Option ℚ
  daily_pnl : Option ℚ
  total_trades : Option ℕ
  current_grid_level : Option ℚ
  deriving Repr, DecidableEq

/-- Embeds `GridBot.save_state`: write the four tracked fields into the singleton
`bot_state` row (the `last_updated` timestamp column is not modelled). -/
def save_state (s : BotState) : BotStateRow :=
  { accumulated_losses := some s.accumulated_losses
    daily_pnl := some s.daily_pnl
    total_trades := some s.total_trades
    current_grid_level := s.current_grid_level }

/-- Python `x or default` on a nullable numeric column: the default is taken
when the value is `None` or `0`. -/
def pyOrQ (x : Option ℚ) (dflt : ℚ) : ℚ :=
  match x with
  | none => dflt
  | some v => if v = 0 then dflt else v

/-- Python `x or default` on a nullable integer column. -/
def pyOrN (x : Option ℕ) (dflt : ℕ) : ℕ :=
  match x with
  | none => dflt
  | some v => if v = 0 then dflt else v

/-- Embeds `GridBot.load_previous_state`: with no row the state is untouched;
otherwise the three numeric fields are read through `or`-defaults and
`current_grid_level` is taken verbatim (including `NULL`). -/
def load_previous_state (s : BotState) (row : Option BotStateRow) : BotState :=
  match row with
  | none => s
  | some r =>
      { s with accumulated_losses := pyOrQ r.accumulated_losses 0
               daily_pnl := pyOrQ r.daily_pnl 0
               total_trades := pyOrN r.total_trades 0
               current_grid_level := r.current_grid_level }

/-- Startup recovery: `__init__` loads the persisted row into the fresh state,
then `GridBot.start` adopts any exchange-reported position as
`current_position` — without touching `current_grid_level`. -/
def startup_recovery (row : Option BotStateRow) (api_position : Option Position) : BotState :=
  let s := load_previous_state initial_state row
  match api_position with
  | some pos => { s with current_position := some pos }
  | none => s

/-- The spec invariant (§3): `current_grid_level` is non-null exactly when a
position is tracked. -/
def levelPositionInv (s : BotState) : Prop :=
  s.current_grid_level.isSome = s.current_position.isSome

/-- The predicate selecting the levels crossed between the last and the
current price, boundary included in the direction of travel, exactly as the
two filters of `check_grid_crossing` do. -/
def crossed_pred (lp cur level : ℚ) : Bool :=
  if cur > lp then decide (lp < level) && decide (level ≤ cur)
  else decide (cur ≤ level) && decide (level < lp)

/-- A concrete configuration: leverage 1, base stake 30 USDT, grid levels
`[10, 20, 30]`, 5% SL/TP ROE, lot step and minimum quantity 0.1. -/
def sampleConfig : Config :=
  { leverage := 1, base_usdt := 30, grid_levels := [10, 20, 30]
    sl_roe := 5, tp_roe := 5, qty_step := 1 / 10, min_qty := 1 / 10 }

/-- A call environment whose order placement fails. -/
def sampleEnvErr : Env :=
  { api_position := none, price_query := some 100, price_query2 := some 100
    order_result := OrderResult.err "rejected" }

/-- A prior state carrying the spec's example loss buffer of 10.4077, used to
instantiate the loss-recovery theorem. -/
def recoveryExampleState : BotState :=
  { initial_state with accumulated_losses := 104077 / 10000 }

/-- An Open state: long 1 unit entered at 100 from grid level 10, with no
accumulated losses. -/
def openExampleState : BotState :=
  { initial_state with
      current_position := some { side := "Buy", size := 1, entry_price := 100 }
      current_grid_level := some 10 }

/-- The state produced by a reversal executed from `openExampleState` at its
entry grid level with both price queries answering 100 and the order
accepted. -/
def reversalExampleState : BotState :=
  execute_reversal sampleConfig openExampleState { side := "Buy", size := 1, entry_price := 100 }
    10 (some 100) (some 100) (OrderResult.ok none)

/-- The ledger row persisted while the closure of `openExampleState` is being
handled: the loss buffer and trade count are already updated, but the grid
level column still carries the open position's level 10. -/
def staleRow : BotStateRow :=
  { accumulated_losses := some (1133 / 10000), daily_pnl := some (-(1133 / 10000))
    total_trades := some 1, current_grid_level := some 10 }

/-! ## Characterization of `get_grid_zone` -/

theorem get_grid_zone_le_length (ls : List ℚ) (p : ℚ) : get_grid_zone ls p ≤ ls.length := by
  induction ls with
  | nil => simp [get_grid_zone]
  | cons l t ih =>
      by_cases h : p ≤ l
      · simp [get_grid_zone, h]
      · simpa [get_grid_zone, h] using ih

theorem lt_of_lt_get_grid_zone (ls : List ℚ) (p : ℚ) (j : ℕ) (hj : j < ls.length)
    (h : j < get_grid_zone ls p) : ls.get ⟨j, hj⟩ < p := by
  induction ls generalizing j with
  | nil => simp at hj
  | cons l t ih =>
      by_cases hpl : p ≤ l
      · simp [get_grid_zone, hpl] at h
      · cases j with
        | zero => simpa using not_le.mp hpl
        | succ k =>
            have hk : k < get_grid_zone t p := by
              simpa [get_grid_zone, hpl] using h
            simpa using ih k (by simpa using hj) hk

theorem le_get_at_grid_zone (ls : List ℚ) (p : ℚ) (h : get_grid_zone ls p < ls.length) :
    p ≤ ls.get ⟨get_grid_zone ls p, h⟩ := by
  induction ls with
  | nil => simp at h
  | cons l t ih =>
      by_cases hpl : p ≤ l
      · simp [get_grid_zone, hpl]
      · have h2 : get_grid_zone t p < t.length := by
          simpa [get_grid_zone, hpl] using h
        simpa [get_grid_zone, hpl] using ih h2

theorem get_grid_zone_le_of_le (ls : List ℚ) (p : ℚ) (j : ℕ) (hj : j < ls.length)
    (h : p ≤ ls.get ⟨j, hj⟩) : get_grid_zone ls p ≤ j := by
  by_contra hc
  exact absurd h (not_le.mpr (lt_of_lt_get_grid_zone ls p j hj (not_le.mp hc)))

theorem get_grid_zone_eq_length (ls : List ℚ) (p : ℚ) (h : ∀ l ∈ ls, l < p) :
    get_grid_zone ls p = ls.length := by
  induction ls with
  | nil => simp [get_grid_zone]
  | cons l t ih =>
      have hl : ¬ p ≤ l := not_le.mpr (h l (List.mem_cons_self l t))
      have := ih (fun x hx => h x (List.mem_cons_of_mem l hx))
      simp [get_grid_zone, hl, this]

theorem lt_get_grid_zone_of_sorted (ls : List ℚ) (p : ℚ) (hs : ls.Sorted (· < ·)) (j : ℕ)
    (hj : j < ls.length) (h : ls.get ⟨j, hj⟩ < p) : j < get_grid_zone ls p := by
  by_contra hc
  have hz : get_grid_zone ls p ≤ j := not_lt.mp hc
  have hzlen : get_grid_zone ls p < ls.length := lt_of_le_of_lt hz hj
  have hp : p ≤ ls.get ⟨get_grid_zone ls p, hzlen⟩ := le_get_at_grid_zone ls p hzlen
  rcases lt_or_eq_of_le hz with hlt | heq
  · have : ls.get ⟨get_grid_zone ls p, hzlen⟩ < ls.get ⟨j, hj⟩ :=
      hs.rel_get_of_lt (by exact hlt)
    exact absurd (lt_of_le_of_lt hp this) (not_lt.mpr h.le)
  · rw [show (⟨get_grid_zone ls p, hzlen⟩ : Fin ls.length) = ⟨j, hj⟩ from Fin.ext heq] at hp
    exact absurd hp (not_le.mpr h)

theorem head_le_of_sorted (a : ℚ) (t : List ℚ) (hs : (a :: t).Sorted (· < ·)) :
    ∀ x ∈ a :: t, a ≤ x := by
  intro x hx
  rcases List.mem_cons.mp hx with rfl | hxt
  · exact le_refl x
  · exact ((List.sorted_cons.mp hs).1 x hxt).le

theorem pyOrQ_some (v : ℚ) : pyOrQ (some v) 0 = v := by
  by_cases h : v = 0
  · simp [pyOrQ, h]
  · simp [pyOrQ, h]

theorem pyOrN_some (v : ℕ) : pyOrN (some v) 0 = v := by
  by_cases h : v = 0
  · simp [pyOrN, h]
  · simp [pyOrN, h]

theorem update_pnl_tracking_position (s : BotState) (p : ℚ) :
    (update_pnl_tracking s p).current_position = s.current_position := by
  simp only [update_pnl_tracking]
  split_ifs <;> rfl

theorem update_pnl_tracking_level (s : BotState) (p : ℚ) :
    (update_pnl_tracking s p).current_grid_level = s.current_grid_level := by
  simp only [update_pnl_tracking]
  split_ifs <;> rfl

theorem open_grid_position_inv (cfg : Config) (s : BotState) (price g : ℚ)
    (pq : Option ℚ) (res : OrderResult) (h : levelPositionInv s) :
    levelPositionInv (open_grid_position cfg s price g pq res) := by
  simp only [open_grid_position]
  split
  · exact h
  · cases res with
    | err m => exact h
    | ok oid => simp [levelPositionInv]

theorem execute_reversal_inv (cfg : Config) (s : BotState) (pos : Position) (g : ℚ)
    (pq1 pq2 : Option ℚ) (res : OrderResult) (h : levelPositionInv s)
    (hlev : s.current_grid_level.isSome = true) :
    levelPositionInv (execute_reversal cfg s pos g pq1 pq2 res) := by
  have hupd : levelPositionInv (update_pnl_tracking s
      (calculate_exact_pnl_with_buffer pos.entry_price ((pq1.getD 0)) pos.size pos.side)) := by
    unfold levelPositionInv
    rw [update_pnl_tracking_position, update_pnl_tracking_level]
    exact h
  simp only [execute_reversal]
  split
  · exact h
  · split
    · exact hupd
    · cases res with
      | err m => exact hupd
      | ok oid =>
          unfold levelPositionInv
          simp [update_pnl_tracking_level, hlev]

theorem monitor_position_status_inv (s : BotState) (env : Env) (h : levelPositionInv s) :
    levelPositionInv (monitor_position_status s env) := by
  simp only [monitor_position_status]
  split
  · exact h
  · split
    · exact h
    · split
      · exact h
      · simp [levelPositionInv]

theorem execute_grid_trade_inv (cfg : Config) (s : BotState) (price g : ℚ) (env : Env)
    (h : levelPositionInv s) : levelPositionInv (execute_grid_trade cfg s price g env) := by
  simp only [execute_grid_trade]
  split
  · rename_i pos heq
    split
    · rename_i hrev
      have hlev : s.current_grid_level.isSome = true := by
        have hsome : s.current_grid_level = some g := by
          simpa [should_reverse_position] using hrev
        rw [hsome]
        rfl
      exact execute_reversal_inv cfg s pos g _ _ _ h hlev
    · exact h
  · exact open_grid_position_inv cfg s price g _ _ h

theorem handle_ticker_inv (cfg : Config) (s : BotState) (price : ℚ) (env : Env)
    (h : levelPositionInv s) : levelPositionInv (handle_ticker cfg s price env) := by
  have htr : levelPositionInv
      { s with tracker := (check_grid_crossing cfg.grid_levels s.tracker price).2 } := h
  simp only [handle_ticker]
  split
  · exact h
  · split
    · exact htr
    · split
      · exact htr
      · exact execute_grid_trade_inv cfg _ price _ env htr

/-! ## Claim theorems -/

/-- C2: `get_grid_zone` returns the index of the first grid level at or above
the price — every level before the returned index is strictly below the price,
and the level at the returned index (when it exists) is at or above it — and
returns the number of levels exactly when the price is strictly greater than
all of them; the `[10, 20, 30]` examples from the spec evaluate as stated. -/
theorem C2_zone_mapping :
    (∀ (ls : List ℚ) (p : ℚ),
      get_grid_zone ls p ≤ ls.length ∧
      (∀ j (hj : j < ls.length), j < get_grid_zone ls p → ls.get ⟨j, hj⟩ < p) ∧
      (∀ h : get_grid_zone ls p < ls.length, p ≤ ls.get ⟨get_grid_zone ls p, h⟩) ∧
      ((∀ l ∈ ls, l < p) → get_grid_zone ls p = ls.length)) ∧
    get_grid_zone [10, 20, 30] 5 = 0 ∧ get_grid_zone [10, 20, 30] 10 = 0 ∧
    get_grid_zone [10, 20, 30] 15 = 1 ∧ get_grid_zone [10, 20, 30] 25 = 2 ∧
    get_grid_zone [10, 20, 30] 35 = 3 := by
  refine ⟨fun ls p => ⟨get_grid_zone_le_length ls p,
    fun j hj h => lt_of_lt_get_grid_zone ls p j hj h,
    fun h => le_get_at_grid_zone ls p h,
    get_grid_zone_eq_length ls p⟩, by decide, by decide, by decide, by decide, by decide⟩

/-- C3: `calculate_exact_pnl_with_buffer` agrees everywhere with the spec's
formula (directional raw P&L, minus the 0.055% entry and exit fees, minus a
further 3% of the absolute value when the post-fee result is negative), and
the two worked examples give exactly 9.8845 and −10.407635 ≈ −10.4077. -/
theorem C3_pnl_calculation :
    (∀ (entry_price exit_price size : ℚ) (side : String),
      calculate_exact_pnl_with_buffer entry_price exit_price size side =
        pnl_spec_formula entry_price exit_price size side) ∧
    calculate_exact_pnl_with_buffer 100 110 1 "Buy" = 9.8845 ∧
    calculate_exact_pnl_with_buffer 100 90 1 "Buy" = -10.407635 ∧
    |calculate_exact_pnl_with_buffer 100 90 1 "Buy" - (-10.4077)| < 1 / 10000 := by
  have h1 : calculate_exact_pnl_with_buffer 100 110 1 "Buy" = 9.8845 := by
    norm_num [calculate_exact_pnl_with_buffer]
  have h2 : calculate_exact_pnl_with_buffer 100 90 1 "Buy" = -10.407635 := by
    norm_num [calculate_exact_pnl_with_buffer, abs_of_neg]
  refine ⟨?_, h1, h2, ?_⟩
  · intro e x sz side
    simp only [calculate_exact_pnl_with_buffer, pnl_spec_formula]
    have h : (if side = "Buy" then (x - e) * sz else (e - x) * sz) -
        (sz * e * (11 / 20000) + sz * x * (11 / 20000)) =
        (if side = "Buy" then (x - e) * sz else (e - x) * sz) -
        sz * e * (11 / 20000) - sz * x * (11 / 20000) := by ring
    rw [h]
    have habs : ∀ A : ℚ,
        (if A < 0 then A - |A| * (3 / 100) else A) =
        (if A < 0 then A - 3 / 100 * |A| else A) := by
      intro A
      split
      · ring
      · rfl
    exact habs _
  · rw [h2]
    rw [show (-10.407635 : ℚ) - (-10.4077) = 13 / 200000 by norm_num]
    rw [abs_of_pos (by norm_num)]
    norm_num

/-- C4: one `update_pnl_tracking` step on a state with a non-negative loss
buffer adds `|pnl|` to the buffer when the trade lost, pays the buffer down to
`max 0 (buffer - pnl)` when it did not (recovering `min buffer pnl`), always
adds the P&L to `daily_pnl` and one to `total_trades`, and never leaves the
buffer negative. -/
theorem C4_loss_recovery_update (s : BotState) (pnl : ℚ) (h : 0 ≤ s.accumulated_losses) :
    (pnl < 0 →
      (update_pnl_tracking s pnl).accumulated_losses = s.accumulated_losses + |pnl|) ∧
    (0 ≤ pnl →
      (update_pnl_tracking s pnl).accumulated_losses = max 0 (s.accumulated_losses - pnl) ∧
      s.accumulated_losses - (update_pnl_tracking s pnl).accumulated_losses =
        min s.accumulated_losses pnl) ∧
    (update_pnl_tracking s pnl).daily_pnl = s.daily_pnl + pnl ∧
    (update_pnl_tracking s pnl).total_trades = s.total_trades + 1 ∧
    0 ≤ (update_pnl_tracking s pnl).accumulated_losses := by
  simp only [update_pnl_tracking]
  split_ifs with hneg hpos
  · refine ⟨fun _ => rfl, fun hge => absurd hneg (not_lt.mpr hge), rfl, rfl, ?_⟩
    exact add_nonneg h (abs_nonneg pnl)
  · refine ⟨fun hlt => absurd hlt hneg, fun hge => ⟨rfl, ?_⟩, rfl, rfl, le_max_left 0 _⟩
    rcases le_total pnl s.accumulated_losses with hle | hle
    · rw [max_eq_right (by linarith), min_eq_right hle]
      ring
    · rw [max_eq_left (by linarith), min_eq_left hle]
      ring
  · have hacc : s.accumulated_losses = 0 := le_antisymm (not_lt.mp hpos) h
    refine ⟨fun hlt => absurd hlt hneg, fun hge => ⟨?_, ?_⟩, rfl, rfl, h⟩
    · rw [hacc, max_eq_left (by linarith)]
    · rw [hacc, min_eq_left (by linarith)]
      ring

/-- Witness for C4: the update applied to a buffer of 10.4077 with a profit of
15 (the spec's recovery example). -/
theorem C4_loss_recovery_update_witness :
    0 ≤ recoveryExampleState.accumulated_losses ∧
    (((15 : ℚ) < 0 →
      (update_pnl_tracking recoveryExampleState 15).accumulated_losses =
        recoveryExampleState.accumulated_losses + |(15 : ℚ)|) ∧
    ((0 : ℚ) ≤ 15 →
      (update_pnl_tracking recoveryExampleState 15).accumulated_losses =
        max 0 (recoveryExampleState.accumulated_losses - 15) ∧
      recoveryExampleState.accumulated_losses -
          (update_pnl_tracking recoveryExampleState 15).accumulated_losses =
        min recoveryExampleState.accumulated_losses 15) ∧
    (update_pnl_tracking recoveryExampleState 15).daily_pnl =
      recoveryExampleState.daily_pnl + 15 ∧
    (update_pnl_tracking recoveryExampleState 15).total_trades =
      recoveryExampleState.total_trades + 1 ∧
    0 ≤ (update_pnl_tracking recoveryExampleState 15).accumulated_losses) :=
  ⟨by norm_num [recoveryExampleState, initial_state],
   C4_loss_recovery_update recoveryExampleState 15
     (by norm_num [recoveryExampleState, initial_state])⟩

/-- C5: with the single grid level 10, a fresh tracker reports nothing on its
first observation and only initializes its state; observing 9 then 11 reports
level 10 on the second call, and the mirrored path 11 then 9 also reports
level 10. -/
theorem C5_single_level_crossing :
    check_grid_crossing [10] ⟨none, none⟩ 9 = (none, ⟨some 9, some 0⟩) ∧
    check_grid_crossing [10] ⟨some 9, some 0⟩ 11 = (some 10, ⟨some 11, some 1⟩) ∧
    check_grid_crossing [10] ⟨none, none⟩ 11 = (none, ⟨some 11, some 1⟩) ∧
    check_grid_crossing [10] ⟨some 11, some 1⟩ 9 = (some 10, ⟨some 9, some 0⟩) := by
  exact ⟨by decide, by decide, by decide, by decide⟩

/-- C8: saving the bot state and reloading the produced row into a fresh
instance reproduces `accumulated_losses`, `total_trades` and
`current_grid_level` exactly. -/
theorem C8_restart_round_trip (s₀ s : BotState) :
    (load_previous_state s₀ (some (save_state s))).accumulated_losses =
      s.accumulated_losses ∧
    (load_previous_state s₀ (some (save_state s))).total_trades = s.total_trades ∧
    (load_previous_state s₀ (some (save_state s))).current_grid_level =
      s.current_grid_level := by
  refine ⟨?_, ?_, rfl⟩
  · simp [load_previous_state, save_state, pyOrQ_some]
  · simp [load_previous_state, save_state, pyOrN_some]

/-- C7: a crossing processed while the exchange reports no position (the Flat
state) whose order placement errors leaves the whole bot state unchanged —
position, grid level, P&L fields and trade log included — so the machine
stays Flat. -/
theorem C7_flat_order_failure_atomic (cfg : Config) (s : BotState) (price lvl : ℚ)
    (env : Env) (msg : String) (hflat : s.current_position = none)
    (hapi : env.api_position = none) (herr : env.order_result = OrderResult.err msg) :
    execute_grid_trade cfg s price lvl env = s ∧
    (execute_grid_trade cfg s price lvl env).current_position = none := by
  have hmain : execute_grid_trade cfg s price lvl env = s := by
    simp only [execute_grid_trade, hapi]
    simp only [open_grid_position, herr]
    split
    · rfl
    · rfl
  exact ⟨hmain, by rw [hmain]; exact hflat⟩

/-- Witness for C7: the failing-order environment applied to the fresh Flat
state at a crossing of level 10 with price 15. -/
theorem C7_flat_order_failure_atomic_witness :
    initial_state.current_position = none ∧
    sampleEnvErr.api_position = none ∧
    sampleEnvErr.order_result = OrderResult.err "rejected" ∧
    (execute_grid_trade sampleConfig initial_state 15 10 sampleEnvErr = initial_state ∧
    (execute_grid_trade sampleConfig initial_state 15 10 sampleEnvErr).current_position =
      none) :=
  ⟨rfl, rfl, rfl,
   C7_flat_order_failure_atomic sampleConfig initial_state 15 10 sampleEnvErr "rejected"
     rfl rfl rfl⟩

/-- C1: at a concrete reversal from the Open state (long 1 @ 100, base stake
30, leverage 1, both price queries 100, order accepted) the reversing order
placed by the source is sized at twice the current position size — quantity 2,
net resulting position 1 — whereas the new stake
`base_stake + accumulated_losses = 30.1133` corresponds to quantity 0.3, so
the claimed sizing `current position size + new-stake quantity = 1.3` and the
claimed net position 0.3 both differ from what the code does. -/
theorem C1_reversal_not_sized_at_new_stake :
    reverse_position 1 "Buy" sampleConfig.sl_roe sampleConfig.tp_roe sampleConfig.leverage
      (some 100) = some { side := "Sell", qty := 2, take_profit := 95, stop_loss := 105 } ∧
    calculate_exact_pnl_with_buffer 100 100 1 "Buy" = -(1133 / 10000) ∧
    reversalExampleState.accumulated_losses = 1133 / 10000 ∧
    reversalExampleState.current_position =
      some { side := "Sell", size := 2, entry_price := 100 } ∧
    calculate_position_size sampleConfig
      (calculate_position_size_with_recovery sampleConfig reversalExampleState) (some 100) =
      some (3 / 10) ∧
    (2 : ℚ) ≠ 1 + 3 / 10 ∧ (2 : ℚ) - 1 ≠ 3 / 10 := by
  have hpnl : calculate_exact_pnl_with_buffer 100 100 1 "Buy" = -(1133 / 10000) := by
    norm_num [calculate_exact_pnl_with_buffer, abs_of_neg]
  have hrev : reverse_position 1 "Buy" sampleConfig.sl_roe sampleConfig.tp_roe
      sampleConfig.leverage (some 100) =
      some { side := "Sell", qty := 2, take_profit := 95, stop_loss := 105 } := by
    refine Eq.trans ?_ rfl
    norm_num [reverse_position, isFalsy, sampleConfig]
    intro hcontra
    exact absurd hcontra (by decide)
  have hstate : reversalExampleState =
      { openExampleState with
          accumulated_losses := 1133 / 10000
          daily_pnl := -(1133 / 10000)
          total_trades := 1
          current_order_id := none
          current_position := some { side := "Sell", size := 2, entry_price := 100 }
          trades := [{ side := "Sell", grid_level := 10
                       usdt_amount := 30 + 1133 / 10000, pnl := -(1133 / 10000)
                       accumulated_losses_after := 1133 / 10000 }] } := by
    rw [reversalExampleState]
    simp only [execute_reversal, isFalsy, hrev]
    norm_num [hpnl, update_pnl_tracking, openExampleState, initial_state,
      calculate_position_size_with_recovery, sampleConfig, abs_of_pos]
  refine ⟨hrev, hpnl, ?_, ?_, ?_, by norm_num, by norm_num⟩
  · rw [hstate]
  · rw [hstate]
  · rw [hstate]
    norm_num [calculate_position_size, calculate_position_size_with_recovery, isFalsy,
      sampleConfig, round_down, openExampleState, initial_state]

/-- C6: whenever at least two grid levels lie strictly between the previously
observed price and the current price, the crossing detector reports a level,
namely the lowest-valued one among all crossed levels (the levels selected by
the travel-interval filter), regardless of the direction of travel. -/
theorem C6_lowest_crossed_level (ls : List ℚ) (s : TrackerState) (lp cur a b : ℚ)
    (hs : ls.Sorted (· < ·)) (hlast : s.last_price = some lp) (hlp : lp ≠ 0)
    (hzone : s.last_grid_zone = some (get_grid_zone ls lp))
    (ha : a ∈ ls) (_hb : b ∈ ls) (hab : a < b)
    (hlo : min lp cur < a) (hhi : b < max lp cur) :
    ∃ m, (check_grid_crossing ls s cur).1 = some m ∧ m ∈ ls ∧
      crossed_pred lp cur m = true ∧ ∀ x ∈ ls, crossed_pred lp cur x = true → m ≤ x := by
  have hseq : s = ⟨some lp, some (get_grid_zone ls lp)⟩ := by
    cases s
    simp_all
  rw [hseq]
  rcases lt_trichotomy lp cur with hdir | hdir | hdir
  · -- upward travel
    rw [min_eq_left hdir.le] at hlo
    rw [max_eq_right hdir.le] at hhi
    have hacur : a < cur := lt_trans hab hhi
    obtain ⟨ia, hia⟩ := List.mem_iff_get.mp ha
    have hget : ls.get ⟨ia.1, ia.2⟩ = a := hia
    have h1 : get_grid_zone ls lp ≤ ia.1 :=
      get_grid_zone_le_of_le ls lp ia.1 ia.2 (by rw [hget]; exact hlo.le)
    have h2 : ia.1 < get_grid_zone ls cur :=
      lt_get_grid_zone_of_sorted ls cur hs ia.1 ia.2 (by rw [hget]; exact hacur)
    have hne : get_grid_zone ls cur ≠ get_grid_zone ls lp := by omega
    have hstep : (check_grid_crossing ls ⟨some lp, some (get_grid_zone ls lp)⟩ cur).1 =
        (ls.filter (fun level => decide (lp < level) && decide (level ≤ cur))).head? := by
      simp only [check_grid_crossing]
      rw [if_neg hlp, if_neg hne, if_pos hdir]
    have hafilter : a ∈ ls.filter (fun level => decide (lp < level) && decide (level ≤ cur)) :=
      List.mem_filter.mpr ⟨ha, by simp [hlo, hacur.le]⟩
    cases hflt : ls.filter (fun level => decide (lp < level) && decide (level ≤ cur)) with
    | nil =>
        rw [hflt] at hafilter
        simp at hafilter
    | cons m t =>
        have hsf : (m :: t).Sorted (· < ·) := hflt ▸ hs.filter _
        have hmf : m ∈ ls.filter (fun level => decide (lp < level) && decide (level ≤ cur)) := by
          rw [hflt]
          exact List.mem_cons_self m t
        obtain ⟨hmls, hfm⟩ := List.mem_filter.mp hmf
        refine ⟨m, by rw [hstep, hflt]; rfl, hmls, ?_, ?_⟩
        · simpa [crossed_pred, if_pos hdir] using hfm
        · intro x hx hpx
          have hfx : (decide (lp < x) && decide (x ≤ cur)) = true := by
            simpa [crossed_pred, if_pos hdir] using hpx
          have hxf : x ∈ m :: t := by
            rw [← hflt]
            exact List.mem_filter.mpr ⟨hx, hfx⟩
          exact head_le_of_sorted m t hsf x hxf
  · -- no travel: the two strictly-between levels are contradictory
    rw [hdir] at hlo hhi
    simp only [min_self, max_self] at hlo hhi
    exact absurd (lt_trans (lt_trans hlo hab) hhi) (lt_irrefl cur)
  · -- downward travel
    rw [min_eq_right hdir.le] at hlo
    rw [max_eq_left hdir.le] at hhi
    have halp : a < lp := lt_trans hab hhi
    obtain ⟨ia, hia⟩ := List.mem_iff_get.mp ha
    have hget : ls.get ⟨ia.1, ia.2⟩ = a := hia
    have h1 : get_grid_zone ls cur ≤ ia.1 :=
      get_grid_zone_le_of_le ls cur ia.1 ia.2 (by rw [hget]; exact hlo.le)
    have h2 : ia.1 < get_grid_zone ls lp :=
      lt_get_grid_zone_of_sorted ls lp hs ia.1 ia.2 (by rw [hget]; exact halp)
    have hne : get_grid_zone ls cur ≠ get_grid_zone ls lp := by omega
    have hngt : ¬ cur > lp := not_lt.mpr hdir.le
    have hstep : (check_grid_crossing ls ⟨some lp, some (get_grid_zone ls lp)⟩ cur).1 =
        (ls.filter (fun level => decide (cur ≤ level) && decide (level < lp))).head? := by
      simp only [check_grid_crossing]
      rw [if_neg hlp, if_neg hne, if_neg hngt]
    have hafilter : a ∈ ls.filter (fun level => decide (cur ≤ level) && decide (level < lp)) :=
      List.mem_filter.mpr ⟨ha, by simp [hlo.le, halp]⟩
    cases hflt : ls.filter (fun level => decide (cur ≤ level) && decide (level < lp)) with
    | nil =>
        rw [hflt] at hafilter
        simp at hafilter
    | cons m t =>
        have hsf : (m :: t).Sorted (· < ·) := hflt ▸ hs.filter _
        have hmf : m ∈ ls.filter (fun level => decide (cur ≤ level) && decide (level < lp)) := by
          rw [hflt]
          exact List.mem_cons_self m t
        obtain ⟨hmls, hfm⟩ := List.mem_filter.mp hmf
        refine ⟨m, by rw [hstep, hflt]; rfl, hmls, ?_, ?_⟩
        · simpa [crossed_pred, if_neg hngt] using hfm
        · intro x hx hpx
          have hfx : (decide (cur ≤ x) && decide (x < lp)) = true := by
            simpa [crossed_pred, if_neg hngt] using hpx
          have hxf : x ∈ m :: t := by
            rw [← hflt]
            exact List.mem_filter.mpr ⟨hx, hfx⟩
          exact head_le_of_sorted m t hsf x hxf

/-- Witness for C6: levels `[10, 20, 30]`, previous price 5 (zone 0), tick at
25 — levels 10 and 20 lie strictly between — reports level 10, the lowest
crossed level. -/
theorem C6_lowest_crossed_level_witness :
    (⟨some 5, some 0⟩ : TrackerState).last_price = some 5 ∧
    ([10, 20, 30] : List ℚ).Sorted (· < ·) ∧
    (∃ m, (check_grid_crossing [10, 20, 30] ⟨some 5, some 0⟩ 25).1 = some m ∧
      m ∈ ([10, 20, 30] : List ℚ) ∧ crossed_pred 5 25 m = true ∧
      ∀ x ∈ ([10, 20, 30] : List ℚ), crossed_pred 5 25 x = true → m ≤ x) :=
  ⟨rfl, by decide,
   C6_lowest_crossed_level [10, 20, 30] ⟨some 5, some 0⟩ 5 25 10 20 (by decide) rfl
     (by decide) (by decide) (by decide) (by decide) (by decide) (by decide) (by decide)⟩

/-- C9 counterexample: the invariant "grid level is non-null iff position is
non-null" fails in a reachable state right after startup recovery.  From an
Open state (long 1 @ 100 at grid level 10) an external closure is handled:
inside `update_pnl_tracking` the source persists the row — still carrying
grid level 10 — and only afterwards clears the in-memory level.  Reloading
that row after a crash, with the exchange reporting no position, yields
`current_grid_level = some 10` with `current_position = none`.  The dual hole:
adopting an existing exchange position over an empty row yields a position
with no grid level. -/
theorem C9_startup_recovery_counterexample :
    levelPositionInv openExampleState ∧
    (monitor_position_status openExampleState sampleEnvErr).current_position = none ∧
    (monitor_position_status openExampleState sampleEnvErr).current_grid_level = none ∧
    save_state (update_pnl_tracking openExampleState
        (calculate_exact_pnl_with_buffer 100 100 1 "Buy")) = staleRow ∧
    (startup_recovery (some staleRow) none).current_grid_level = some 10 ∧
    (startup_recovery (some staleRow) none).current_position = none ∧
    ¬ levelPositionInv (startup_recovery (some staleRow) none) ∧
    ¬ levelPositionInv (startup_recovery none
        (some { side := "Buy", size := 1, entry_price := 100 })) := by
  have hpnl : calculate_exact_pnl_with_buffer 100 100 1 "Buy" = -(1133 / 10000) := by
    norm_num [calculate_exact_pnl_with_buffer, abs_of_neg]
  have hupd : update_pnl_tracking openExampleState (-(1133 / 10000)) =
      { openExampleState with accumulated_losses := 1133 / 10000
                              daily_pnl := -(1133 / 10000), total_trades := 1 } := by
    norm_num [update_pnl_tracking, openExampleState, initial_state, abs_of_pos]
  refine ⟨rfl, rfl, rfl, ?_, ?_, ?_, ?_, ?_⟩
  · rw [hpnl, hupd]
    rfl
  · rfl
  · rfl
  · simp [levelPositionInv, startup_recovery, load_previous_state, initial_state, staleRow]
  · simp [levelPositionInv, startup_recovery, load_previous_state, initial_state]

/-- C9 (amended): the level/position invariant is preserved by every runtime
transition of the state machine — any price tick and any closure poll, under
any exchange responses — though startup recovery can break it. -/
theorem C9_invariant_preserved_by_runtime_steps (cfg : Config) (s : BotState) (e : Event)
    (h : levelPositionInv s) : levelPositionInv (step cfg s e) := by
  cases e with
  | tick price env => exact handle_ticker_inv cfg s price env h
  | poll env => exact monitor_position_status_inv s env h

/-- Witness for the amended C9: one closure poll from the fresh Flat state
keeps the invariant. -/
theorem C9_invariant_preserved_witness :
    levelPositionInv initial_state ∧
    levelPositionInv (step sampleConfig initial_state (Event.poll sampleEnvErr)) :=
  ⟨rfl, C9_invariant_preserved_by_runtime_steps sampleConfig initial_state
    (Event.poll sampleEnvErr) rfl⟩

/-- C10: with levels `[10, 20]`, a tracker whose last observed price is
exactly 10 (zone 0) sees a tick at 15 change the zone to 1, yet
`check_grid_crossing` reports no crossing — the upward filter demands the last
price strictly below the level — while the tracker state is still updated. -/
theorem C10_zone_change_without_crossing :
    check_grid_crossing [10, 20] ⟨some 10, some 0⟩ 15 = (none, ⟨some 15, some 1⟩) ∧
    get_grid_zone [10, 20] 10 = 0 ∧ get_grid_zone [10, 20] 15 = 1 := by
  exact ⟨by decide, by decide, by decide⟩

end GridBot
